/-
  Verification of the Smart Bookmark App's client-side reconciliation logic.

  The definitions below are a shallow embedding of the TypeScript source:
    - `applyInsert` / `applyDelete` embed the state-updater callbacks
      `handleBookmarkAdded` / `handleRealtimeInsert` and
      `handleBookmarkDeleted` / `handleRealtimeDelete` of
      src/components/Dashboard.tsx (both insert callbacks share one body,
      as do both delete callbacks);
    - the delete flow, the realtime handlers and the status machine embed
      src/components/BookmarkList.tsx;
    - `normaliseUrl` / `validate` / `handleSubmit` embed
      components/BookmarkForm.tsx.

  ISO-8601 creation timestamps are modelled as `Nat` (the model only ever
  compares them, and the ISO string order agrees with chronological order).
-/
import Mathlib

namespace SmartBookmark

/-- The Bookmark row type from lib/types.ts / the bookmarks table:
identifier, owner identifier, title, target address, creation timestamp. -/
structure Bookmark where
  id : String
  user_id : String
  title : String
  url : String
  created_at : Nat
deriving DecidableEq, Repr

/-- Embeds `handleBookmarkAdded` / `handleRealtimeInsert` from
src/components/Dashboard.tsx:
`if (prev.some((b) => b.id === newBookmark.id)) return prev;
 return [newBookmark, ...prev];` -/
def applyInsert (newBookmark : Bookmark) (prev : List Bookmark) : List Bookmark :=
  if prev.any (fun b => b.id == newBookmark.id) then prev
  else newBookmark :: prev

/-- Embeds `handleBookmarkDeleted` / `handleRealtimeDelete` from
src/components/Dashboard.tsx: `prev.filter((b) => b.id !== id)`. -/
def applyDelete (id : String) (prev : List Bookmark) : List Bookmark :=
  prev.filter (fun b => b.id != id)

/-- A sequence of `applyInsert` calls, applied left to right. -/
def insertAll (v : List Bookmark) (bs : List Bookmark) : List Bookmark :=
  bs.foldl (fun acc b => applyInsert b acc) v

lemma any_id_eq_true_iff (v : List Bookmark) (b : Bookmark) :
    (v.any (fun x => x.id == b.id) = true) ↔ ∃ x ∈ v, x.id = b.id := by
  simp [List.any_eq_true]

lemma applyInsert_of_mem (b : Bookmark) (v : List Bookmark)
    (h : ∃ x ∈ v, x.id = b.id) : applyInsert b v = v := by
  unfold applyInsert
  rw [if_pos ((any_id_eq_true_iff v b).mpr h)]

lemma applyInsert_of_not_mem (b : Bookmark) (v : List Bookmark)
    (h : ¬ ∃ x ∈ v, x.id = b.id) : applyInsert b v = b :: v := by
  unfold applyInsert
  rw [if_neg (fun hc => h ((any_id_eq_true_iff v b).mp hc))]

lemma nodup_ids_applyInsert (b : Bookmark) (v : List Bookmark)
    (h : (v.map Bookmark.id).Nodup) : ((applyInsert b v).map Bookmark.id).Nodup := by
  unfold applyInsert
  by_cases hc : v.any (fun x => x.id == b.id) = true
  · rw [if_pos hc]; exact h
  · rw [if_neg hc]
    refine List.Nodup.cons ?_ h
    intro hmem
    apply hc
    rw [any_id_eq_true_iff]
    rcases List.mem_map.mp hmem with ⟨x, hx, hid⟩
    exact ⟨x, hx, hid⟩

lemma nodup_ids_insertAll (bs : List Bookmark) (v : List Bookmark)
    (h : (v.map Bookmark.id).Nodup) : ((insertAll v bs).map Bookmark.id).Nodup := by
  induction bs generalizing v with
  | nil => exact h
  | cons b rest ih => exact ih (applyInsert b v) (nodup_ids_applyInsert b v h)

/-- C1: `applyInsert` is a no-op when a bookmark with the same identifier is
already in the view, otherwise it prepends the bookmark; consequently, any
sequence of `applyInsert` calls starting from a view with distinct
identifiers yields a view in which every identifier occurs exactly once. -/
theorem c1_applyInsert_dedup_prepend (b : Bookmark) (v : List Bookmark)
    (bs : List Bookmark) :
    ((∃ x ∈ v, x.id = b.id) → applyInsert b v = v) ∧
    ((¬ ∃ x ∈ v, x.id = b.id) → applyInsert b v = b :: v) ∧
    ((v.map Bookmark.id).Nodup →
      ∀ i ∈ (insertAll v bs).map Bookmark.id,
        ((insertAll v bs).map Bookmark.id).count i = 1) := by
  refine ⟨applyInsert_of_mem b v, applyInsert_of_not_mem b v, ?_⟩
  intro hnd i hi
  exact List.count_eq_one_of_mem (nodup_ids_insertAll bs v hnd) hi

/-- Sample bookmarks used to instantiate the theorems at concrete inputs. -/
def bmA : Bookmark := ⟨"id-a", "user-1", "Docs", "https://a.example", 10⟩

def bmB : Bookmark := ⟨"id-b", "user-1", "News", "https://b.example", 20⟩

def bmA2 : Bookmark := ⟨"id-a", "user-1", "Docs again", "https://a2.example", 30⟩

/-- C1 instantiated: inserting a fresh bookmark prepends it, re-inserting a
bookmark with an identifier already present is a no-op, and a duplicate-heavy
insert sequence leaves each identifier exactly once. -/
theorem c1_applyInsert_dedup_prepend_witness :
    ((∃ x ∈ [bmA], x.id = bmB.id) → applyInsert bmB [bmA] = [bmA]) ∧
    ((¬ ∃ x ∈ [bmA], x.id = bmB.id) → applyInsert bmB [bmA] = [bmB, bmA]) ∧
    (([bmA].map Bookmark.id).Nodup →
      ∀ i ∈ (insertAll [bmA] [bmB, bmA2, bmB]).map Bookmark.id,
        ((insertAll [bmA] [bmB, bmA2, bmB]).map Bookmark.id).count i = 1) :=
  c1_applyInsert_dedup_prepend bmB [bmA] [bmB, bmA2, bmB]

lemma mem_applyDelete_iff (id : String) (v : List Bookmark) (b : Bookmark) :
    b ∈ applyDelete id v ↔ b ∈ v ∧ b.id ≠ id := by
  simp [applyDelete, List.mem_filter]

/-- C2: `applyDelete id` removes exactly the entries whose identifier is `id`,
keeps the remaining entries in their relative order (the result is a sublist
of the input), and is a no-op when no entry has identifier `id`. -/
theorem c2_applyDelete_exact (id : String) (v : List Bookmark) :
    (∀ b, b ∈ applyDelete id v ↔ b ∈ v ∧ b.id ≠ id) ∧
    (applyDelete id v).Sublist v ∧
    ((∀ b ∈ v, b.id ≠ id) → applyDelete id v = v) := by
  refine ⟨mem_applyDelete_iff id v, List.filter_sublist v, ?_⟩
  intro h
  apply List.filter_eq_self.mpr
  intro b hb
  simpa using h b hb

/-- C2 instantiated at the spec's example: given the view `[B1, B2]`
(`B1` newer), deleting `B2`'s identifier yields `[B1]`, and deleting an
absent identifier leaves the view unchanged. -/
theorem c2_applyDelete_exact_witness :
    (∀ b, b ∈ applyDelete bmA.id [bmB, bmA] ↔ b ∈ [bmB, bmA] ∧ b.id ≠ bmA.id) ∧
    (applyDelete bmA.id [bmB, bmA]).Sublist [bmB, bmA] ∧
    ((∀ b ∈ [bmB, bmA], b.id ≠ bmA.id) → applyDelete bmA.id [bmB, bmA] = [bmB, bmA]) :=
  c2_applyDelete_exact bmA.id [bmB, bmA]

/-- The session view's ordering invariant from the spec: newest-first by
creation timestamp (each entry's timestamp is at least that of every later
entry). -/
def NewestFirst (v : List Bookmark) : Prop :=
  v.Pairwise (fun a b => b.created_at ≤ a.created_at)

/-- One change-feed update applied to the view: an insert notification or a
delete notification, as dispatched by `startRealtime` in
src/components/BookmarkList.tsx to the Dashboard callbacks. -/
inductive FeedOp where
  | ins (b : Bookmark)
  | del (id : String)
deriving DecidableEq, Repr

def applyOp (v : List Bookmark) : FeedOp → List Bookmark
  | .ins b => applyInsert b v
  | .del i => applyDelete i v

def runOps (v : List Bookmark) (ops : List FeedOp) : List Bookmark :=
  ops.foldl applyOp v

/-- The sequence of operations delivers inserts in creation order: each
inserted bookmark was created no earlier than every bookmark in the view at
the moment it is applied. -/
def insertsInCreationOrder (v : List Bookmark) : List FeedOp → Bool
  | [] => true
  | .ins b :: ops =>
      v.all (fun x => x.created_at ≤ b.created_at) &&
        insertsInCreationOrder (applyInsert b v) ops
  | .del i :: ops => insertsInCreationOrder (applyDelete i v) ops

lemma newestFirst_applyInsert (b : Bookmark) (v : List Bookmark)
    (hv : NewestFirst v) (hle : ∀ x ∈ v, x.created_at ≤ b.created_at) :
    NewestFirst (applyInsert b v) := by
  unfold applyInsert
  by_cases hc : v.any (fun x => x.id == b.id) = true
  · rw [if_pos hc]; exact hv
  · rw [if_neg hc]
    exact List.Pairwise.cons hle hv

lemma newestFirst_applyDelete (id : String) (v : List Bookmark)
    (hv : NewestFirst v) : NewestFirst (applyDelete id v) :=
  List.Pairwise.sublist (List.filter_sublist v) hv

/-- C3: starting from a newest-first snapshot, any sequence of inserts
arriving in creation order, with deletes interleaved anywhere, keeps the
view newest-first. -/
theorem c3_newest_first_invariant (v : List Bookmark) (ops : List FeedOp)
    (hv : NewestFirst v) (hord : insertsInCreationOrder v ops = true) :
    NewestFirst (runOps v ops) := by
  induction ops generalizing v with
  | nil => exact hv
  | cons op rest ih =>
    cases op with
    | ins b =>
      rw [insertsInCreationOrder, Bool.and_eq_true] at hord
      have hle : ∀ x ∈ v, x.created_at ≤ b.created_at := by
        intro x hx
        exact of_decide_eq_true (List.all_eq_true.mp hord.1 x hx)
      exact ih (applyInsert b v) (newestFirst_applyInsert b v hv hle) hord.2
    | del i =>
      rw [insertsInCreationOrder] at hord
      exact ih (applyDelete i v) (newestFirst_applyDelete i v hv) hord

/-- C3 instantiated: a snapshot `[B2, B1]` (B2 newer), an in-order insert of
a still-newer bookmark and an interleaved delete keep the view newest-first. -/
theorem c3_newest_first_invariant_witness :
    NewestFirst (runOps [bmB, bmA] [FeedOp.ins bmA2, FeedOp.del bmB.id]) :=
  c3_newest_first_invariant [bmB, bmA] [FeedOp.ins bmA2, FeedOp.del bmB.id]
    (by unfold NewestFirst; decide) (by decide)

/-- The observable events of one run of `handleDelete` in
src/components/BookmarkList.tsx, in program order: the optimistic removal
(`onBookmarkDeleted(id)`), the delete request to the Store, the Store's
response, the error report (`setDeleteError`), and the recovery re-fetch
inserts (`data.forEach((b) => onRealtimeInsert(b))`). -/
inductive DeleteEvent where
  | optimisticRemove (id : String)
  | storeRequest (id : String)
  | storeResponse (ok : Bool)
  | reportError (msg : String)
  | refetchInsert (b : Bookmark)
deriving DecidableEq, Repr

def DeleteEvent.isResponse : DeleteEvent → Bool
  | .storeResponse _ => true
  | _ => false

/-- The event trace of `handleDelete(id)`: the optimistic removal happens
first, then the delete request is issued and awaited; on success nothing
else happens, on failure the error is reported and every row of the
recovery re-fetch is fed through the insert callback. -/
def handleDeleteTrace (id : String) (res : Except String Unit)
    (refetched : List Bookmark) : List DeleteEvent :=
  [DeleteEvent.optimisticRemove id, DeleteEvent.storeRequest id] ++
    match res with
    | .ok _ => [DeleteEvent.storeResponse true]
    | .error m =>
        DeleteEvent.storeResponse false ::
          DeleteEvent.reportError ("Failed to delete: " ++ m) ::
          refetched.map DeleteEvent.refetchInsert

/-- The effect of one delete-flow event on the session view: the optimistic
removal runs `applyDelete`, each recovery insert runs `applyInsert`, and the
other events do not touch the view. -/
def applyEvent (v : List Bookmark) : DeleteEvent → List Bookmark
  | .optimisticRemove i => applyDelete i v
  | .refetchInsert b => applyInsert b v
  | _ => v

def viewAfter (v : List Bookmark) (evs : List DeleteEvent) : List Bookmark :=
  evs.foldl applyEvent v

/-- C4: in the delete flow, the optimistic removal precedes the Store
request, no Store response occurs in the trace before position 2, and at the
moment the request is issued the view already contains no bookmark with the
deleted identifier. -/
theorem c4_optimistic_removal_before_request (id : String)
    (res : Except String Unit) (refetched : List Bookmark) (v : List Bookmark) :
    ((handleDeleteTrace id res refetched).take 2 =
      [DeleteEvent.optimisticRemove id, DeleteEvent.storeRequest id]) ∧
    (∀ i, (hi : i < (handleDeleteTrace id res refetched).length) →
      ((handleDeleteTrace id res refetched).get ⟨i, hi⟩).isResponse = true → 2 ≤ i) ∧
    (∀ b ∈ viewAfter v ((handleDeleteTrace id res refetched).take 2), b.id ≠ id) := by
  refine ⟨rfl, ?_, ?_⟩
  · intro i hi hresp
    match i with
    | 0 => simp [handleDeleteTrace, DeleteEvent.isResponse] at hresp
    | 1 => simp [handleDeleteTrace, DeleteEvent.isResponse] at hresp
    | n + 2 => omega
  · intro b hb
    have : b ∈ applyDelete id v := by
      simpa [handleDeleteTrace, viewAfter, applyEvent] using hb
    exact ((mem_applyDelete_iff id v b).mp this).2

/-- C4 instantiated at a concrete delete of `bmA` from the view `[bmB, bmA]`
with a delayed failing Store response. -/
theorem c4_optimistic_removal_before_request_witness :
    ((handleDeleteTrace bmA.id (Except.error "denied") [bmA, bmB]).take 2 =
      [DeleteEvent.optimisticRemove bmA.id, DeleteEvent.storeRequest bmA.id]) ∧
    (∀ i, (hi : i < (handleDeleteTrace bmA.id (Except.error "denied") [bmA, bmB]).length) →
      ((handleDeleteTrace bmA.id (Except.error "denied") [bmA, bmB]).get ⟨i, hi⟩).isResponse = true →
        2 ≤ i) ∧
    (∀ b ∈ viewAfter [bmB, bmA]
        ((handleDeleteTrace bmA.id (Except.error "denied") [bmA, bmB]).take 2),
      b.id ≠ bmA.id) :=
  c4_optimistic_removal_before_request bmA.id (Except.error "denied") [bmA, bmB] [bmB, bmA]

/-- The error message surfaced by `handleDelete` for a given Store response:
`setDeleteError` with the template string on failure, nothing on success. -/
def deleteErrorMsg (res : Except String Unit) : Option String :=
  match res with
  | .ok _ => none
  | .error m => some ("Failed to delete: " ++ m)

/-- The session view after the whole delete flow has run. -/
def handleDeleteView (v : List Bookmark) (id : String) (res : Except String Unit)
    (refetched : List Bookmark) : List Bookmark :=
  viewAfter v (handleDeleteTrace id res refetched)

lemma mem_applyInsert_of_mem (b x : Bookmark) (v : List Bookmark)
    (h : x ∈ v) : x ∈ applyInsert b v := by
  unfold applyInsert
  by_cases hc : v.any (fun y => y.id == b.id) = true
  · rw [if_pos hc]; exact h
  · rw [if_neg hc]; exact List.mem_cons_of_mem b h

lemma mem_insertAll_of_mem (bs : List Bookmark) (x : Bookmark) (v : List Bookmark)
    (h : x ∈ v) : x ∈ insertAll v bs := by
  induction bs generalizing v with
  | nil => exact h
  | cons b rest ih => exact ih (applyInsert b v) (mem_applyInsert_of_mem b x v h)

lemma id_mem_applyInsert (b : Bookmark) (v : List Bookmark) (i : String)
    (h : i ∈ v.map Bookmark.id) : i ∈ (applyInsert b v).map Bookmark.id := by
  rcases List.mem_map.mp h with ⟨x, hx, hid⟩
  exact List.mem_map.mpr ⟨x, mem_applyInsert_of_mem b x v hx, hid⟩

lemma id_mem_insertAll (bs : List Bookmark) (v : List Bookmark) (i : String)
    (h : i ∈ v.map Bookmark.id) : i ∈ (insertAll v bs).map Bookmark.id := by
  rcases List.mem_map.mp h with ⟨x, hx, hid⟩
  exact List.mem_map.mpr ⟨x, mem_insertAll_of_mem bs x v hx, hid⟩

lemma insertAll_cons (v : List Bookmark) (b : Bookmark) (bs : List Bookmark) :
    insertAll v (b :: bs) = insertAll (applyInsert b v) bs := rfl

lemma id_mem_applyInsert_self (b : Bookmark) (v : List Bookmark) :
    b.id ∈ (applyInsert b v).map Bookmark.id := by
  unfold applyInsert
  by_cases hc : v.any (fun y => y.id == b.id) = true
  · rw [if_pos hc]
    rcases (any_id_eq_true_iff v b).mp hc with ⟨x, hx, hid⟩
    exact List.mem_map.mpr ⟨x, hx, hid⟩
  · rw [if_neg hc]
    exact List.mem_map.mpr ⟨b, List.mem_cons_self b v, rfl⟩

lemma id_mem_insertAll_of_mem (bs : List Bookmark) (v : List Bookmark)
    (b : Bookmark) (hb : b ∈ bs) : b.id ∈ (insertAll v bs).map Bookmark.id := by
  induction bs generalizing v with
  | nil => cases hb
  | cons hd rest ih =>
    rw [insertAll_cons]
    rcases List.mem_cons.mp hb with hEq | hmem
    · subst hEq
      exact id_mem_insertAll rest (applyInsert b v) b.id (id_mem_applyInsert_self b v)
    · exact ih (applyInsert hd v) hmem

lemma handleDeleteView_error (v : List Bookmark) (id : String) (m : String)
    (refetched : List Bookmark) :
    handleDeleteView v id (Except.error m) refetched =
      insertAll (applyDelete id v) refetched := by
  unfold handleDeleteView viewAfter handleDeleteTrace insertAll
  simp [applyEvent, List.foldl_map]

/-- C5: when the delete request fails, the error message is surfaced, the
optimistically removed identifier is back in the view whenever the recovery
re-fetch returns a row bearing it, and the recovery removes no row: every
row present after the optimistic removal is still present afterwards. -/
theorem c5_delete_failure_recovery (v : List Bookmark) (id : String)
    (m : String) (refetched : List Bookmark) :
    (deleteErrorMsg (Except.error m) = some ("Failed to delete: " ++ m)) ∧
    ((∃ b ∈ refetched, b.id = id) →
      id ∈ (handleDeleteView v id (Except.error m) refetched).map Bookmark.id) ∧
    (∀ b ∈ applyDelete id v, b ∈ handleDeleteView v id (Except.error m) refetched) := by
  refine ⟨rfl, ?_, ?_⟩
  · rintro ⟨b, hb, hid⟩
    rw [handleDeleteView_error]
    have := id_mem_insertAll_of_mem refetched (applyDelete id v) b hb
    rwa [hid] at this
  · intro b hb
    rw [handleDeleteView_error]
    exact mem_insertAll_of_mem refetched b (applyDelete id v) hb

/-- C5 instantiated: a failing delete of `bmA` from `[bmB, bmA]` with the
re-fetch returning both rows surfaces the error and restores `bmA`'s
identifier without dropping `bmB`. -/
theorem c5_delete_failure_recovery_witness :
    (deleteErrorMsg (Except.error "denied") = some ("Failed to delete: " ++ "denied")) ∧
    ((∃ b ∈ [bmA, bmB], b.id = bmA.id) →
      bmA.id ∈ (handleDeleteView [bmB, bmA] bmA.id (Except.error "denied")
        [bmA, bmB]).map Bookmark.id) ∧
    (∀ b ∈ applyDelete bmA.id [bmB, bmA],
      b ∈ handleDeleteView [bmB, bmA] bmA.id (Except.error "denied") [bmA, bmB]) :=
  c5_delete_failure_recovery [bmB, bmA] bmA.id "denied" [bmA, bmB]

/-- The three states of the `realtimeStatus` tracker in
src/components/BookmarkList.tsx. -/
inductive RealtimeStatus where
  | connecting
  | connected
  | error
deriving DecidableEq, Repr

/-- The subscription lifecycle acknowledgements delivered to the
`.subscribe((status) => ...)` callback by the change-feed client. -/
inductive SubscribeAck where
  | SUBSCRIBED
  | CHANNEL_ERROR
  | TIMED_OUT
  | CLOSED
deriving DecidableEq, Repr

/-- `useState(... "connecting")`: the tracker's initial state. -/
def initialStatus : RealtimeStatus := RealtimeStatus.connecting

/-- Embeds the subscribe callback of `startRealtime`:
`if (status === "SUBSCRIBED") setRealtimeStatus("connected");
 else if (status === "CHANNEL_ERROR" || status === "TIMED_OUT")
 setRealtimeStatus("error");` — any other acknowledgement leaves the
status unchanged. The callback is the only writer of `realtimeStatus`
after initialisation; no user action feeds into it. -/
def statusStep (s : RealtimeStatus) (a : SubscribeAck) : RealtimeStatus :=
  match a with
  | .SUBSCRIBED => RealtimeStatus.connected
  | .CHANNEL_ERROR => RealtimeStatus.error
  | .TIMED_OUT => RealtimeStatus.error
  | .CLOSED => s

/-- C9: the tracker starts in `connecting`; an acknowledgement yields
`connected` exactly when it is `SUBSCRIBED` and `error` exactly when it is
`CHANNEL_ERROR` or `TIMED_OUT` (any other acknowledgement changes nothing),
and once the status has left `connecting` no acknowledgement brings it
back. -/
theorem c9_status_machine (s : RealtimeStatus) (a : SubscribeAck) :
    initialStatus = RealtimeStatus.connecting ∧
    statusStep s SubscribeAck.SUBSCRIBED = RealtimeStatus.connected ∧
    statusStep s SubscribeAck.CHANNEL_ERROR = RealtimeStatus.error ∧
    statusStep s SubscribeAck.TIMED_OUT = RealtimeStatus.error ∧
    statusStep s SubscribeAck.CLOSED = s ∧
    (statusStep s a = RealtimeStatus.connected →
      a = SubscribeAck.SUBSCRIBED ∨ s = RealtimeStatus.connected) ∧
    (statusStep s a = RealtimeStatus.error →
      a = SubscribeAck.CHANNEL_ERROR ∨ a = SubscribeAck.TIMED_OUT ∨
        s = RealtimeStatus.error) ∧
    (s ≠ RealtimeStatus.connecting → statusStep s a ≠ RealtimeStatus.connecting) := by
  cases s <;> cases a <;> simp [initialStatus, statusStep]

/-- C9 instantiated: from the `connected` state, a `CLOSED` acknowledgement
changes nothing and in particular does not return the tracker to
`connecting`. -/
theorem c9_status_machine_witness :
    initialStatus = RealtimeStatus.connecting ∧
    statusStep RealtimeStatus.connected SubscribeAck.SUBSCRIBED = RealtimeStatus.connected ∧
    statusStep RealtimeStatus.connected SubscribeAck.CHANNEL_ERROR = RealtimeStatus.error ∧
    statusStep RealtimeStatus.connected SubscribeAck.TIMED_OUT = RealtimeStatus.error ∧
    statusStep RealtimeStatus.connected SubscribeAck.CLOSED = RealtimeStatus.connected ∧
    (statusStep RealtimeStatus.connected SubscribeAck.CLOSED = RealtimeStatus.connected →
      SubscribeAck.CLOSED = SubscribeAck.SUBSCRIBED ∨
        RealtimeStatus.connected = RealtimeStatus.connected) ∧
    (statusStep RealtimeStatus.connected SubscribeAck.CLOSED = RealtimeStatus.error →
      SubscribeAck.CLOSED = SubscribeAck.CHANNEL_ERROR ∨
        SubscribeAck.CLOSED = SubscribeAck.TIMED_OUT ∨
        RealtimeStatus.connected = RealtimeStatus.error) ∧
    (RealtimeStatus.connected ≠ RealtimeStatus.connecting →
      statusStep RealtimeStatus.connected SubscribeAck.CLOSED ≠ RealtimeStatus.connecting) :=
  c9_status_machine RealtimeStatus.connected SubscribeAck.CLOSED

/-- Embeds the INSERT change-feed handler of `startRealtime` in
src/components/BookmarkList.tsx:
`if (newBookmark.user_id !== userId) return; onRealtimeInsert(newBookmark);`. -/
def onInsertEvent (userId : String) (newBookmark : Bookmark)
    (v : List Bookmark) : List Bookmark :=
  if newBookmark.user_id ≠ userId then v else applyInsert newBookmark v

/-- Embeds the DELETE change-feed handler of `startRealtime`:
`const deletedId = payload.old.id; onRealtimeDelete(deletedId);` — no
ownership check is performed on the event. -/
def onDeleteEvent (deletedId : String) (v : List Bookmark) : List Bookmark :=
  applyDelete deletedId v

/-- C10: the change-feed handlers filter ownership asymmetrically: an insert
notification whose row belongs to a different user leaves the view
unchanged, while a delete notification removes every row bearing the
event's identifier — the delete handler takes no user identity at all, so
rows are removed regardless of their owner. -/
theorem c10_ownership_filter_asymmetry (userId : String) (b : Bookmark)
    (v : List Bookmark) (deletedId : String) :
    (b.user_id ≠ userId → onInsertEvent userId b v = v) ∧
    (b.user_id = userId → onInsertEvent userId b v = applyInsert b v) ∧
    (onDeleteEvent deletedId v = applyDelete deletedId v) ∧
    (∀ x ∈ v, x.id = deletedId → x ∉ onDeleteEvent deletedId v) := by
  refine ⟨fun h => if_pos h, fun h => if_neg (by simp [h]), rfl, ?_⟩
  intro x _ hx hmem
  exact ((mem_applyDelete_iff deletedId v x).mp hmem).2 hx

/-- A bookmark owned by another user, present in this user's view. -/
def bmOther : Bookmark := ⟨"id-z", "user-2", "Foreign", "https://z.example", 5⟩

/-- C10 instantiated: an insert event for `user-2`'s row is dropped by
`user-1`'s subscription, yet a delete event for that same row removes it
from the view with no ownership check. -/
theorem c10_ownership_filter_asymmetry_witness :
    (bmOther.user_id ≠ "user-1" →
      onInsertEvent "user-1" bmOther [bmA, bmOther] = [bmA, bmOther]) ∧
    (bmOther.user_id = "user-1" →
      onInsertEvent "user-1" bmOther [bmA, bmOther] = applyInsert bmOther [bmA, bmOther]) ∧
    (onDeleteEvent bmOther.id [bmA, bmOther] = applyDelete bmOther.id [bmA, bmOther]) ∧
    (∀ x ∈ [bmA, bmOther], x.id = bmOther.id →
      x ∉ onDeleteEvent bmOther.id [bmA, bmOther]) :=
  c10_ownership_filter_asymmetry "user-1" bmOther [bmA, bmOther] bmOther.id

/-- ASCII whitespace, the fragment of the JS `trim()` whitespace class the
inputs here can contain. -/
def isJsSpace (c : Char) : Bool :=
  c == ' ' || c == '\t' || c == '\n' || c == '\r'

def trimChars (l : List Char) : List Char :=
  ((l.dropWhile isJsSpace).reverse.dropWhile isJsSpace).reverse

/-- Embeds `s.trim()` (modelled for ASCII whitespace). -/
def jsTrim (s : String) : String := ⟨trimChars s.data⟩

/-- `startsWithL s p` embeds `s.startsWith(p)` on character lists. -/
def startsWithL : List Char → List Char → Bool
  | _, [] => true
  | [], _ :: _ => false
  | c :: cs, p :: ps => c == p && startsWithL cs ps

/-- Embeds `normaliseUrl` from components/BookmarkForm.tsx: trim, then
prepend "https://" unless the string already starts with "http://" or
"https://". -/
def normaliseUrl (raw : String) : String :=
  let trimmed := jsTrim raw
  if !(startsWithL trimmed.data "http://".data) &&
      !(startsWithL trimmed.data "https://".data) then
    "https://" ++ trimmed
  else trimmed

def isDigitChar (c : Char) : Bool := decide ('0' ≤ c) && decide (c ≤ '9')

def isAlphaChar (c : Char) : Bool :=
  (decide ('a' ≤ c) && decide (c ≤ 'z')) || (decide ('A' ≤ c) && decide (c ≤ 'Z'))

def lowerChar (c : Char) : Char :=
  if 'A' ≤ c ∧ c ≤ 'Z' then Char.ofNat (c.toNat + 32) else c

/-- The protocol and hostname of a parsed URL, the two attributes `validate`
reads. -/
structure ParsedUrl where
  protocol : List Char
  hostname : List Char
deriving DecidableEq, Repr

/-- Modelled from the spec: the platform's WHATWG `new URL(...)` parser,
which the repository calls but does not implement, restricted to the
http/https inputs `normaliseUrl` produces (ASCII hosts, no percent-decoding
or punycode): after the scheme's `//` any further slashes are skipped, the
authority runs to the next `/`, `\`, `?` or `#`, userinfo before a final
`@` is dropped, the host is cut at the first `:` with the remainder
required to be a possibly-empty digit-only port, an empty host is a parse
error, and the host is ASCII-lowercased. -/
def parseHost (rest : List Char) : Option (List Char) :=
  let afterSlashes := rest.dropWhile (fun c => c == '/' || c == '\\')
  let authority := afterSlashes.takeWhile
    (fun c => !(c == '/' || c == '\\' || c == '?' || c == '#'))
  let hostport := (authority.reverse.takeWhile (fun c => !(c == '@'))).reverse
  let host := hostport.takeWhile (fun c => !(c == ':'))
  let portDigits := (hostport.dropWhile (fun c => !(c == ':'))).drop 1
  if host.isEmpty then none
  else if !(portDigits.all isDigitChar) then none
  else some (host.map lowerChar)

/-- Modelled from the spec: `new URL(s)` for the strings reaching it here,
which always bear an `http://` or `https://` scheme (see `normaliseUrl`). -/
def parseURL (s : String) : Option ParsedUrl :=
  if startsWithL s.data "http://".data then
    (parseHost (s.data.drop 7)).map (fun h => ⟨ "http:".data, h⟩)
  else if startsWithL s.data "https://".data then
    (parseHost (s.data.drop 8)).map (fun h => ⟨ "https:".data, h⟩)
  else none

/-- Embeds `hostname.split(".")`. -/
def splitOnDot : List Char → List (List Char)
  | [] => [[]]
  | c :: cs =>
    if c == '.' then [] :: splitOnDot cs
    else
      match splitOnDot cs with
      | [] => [[c]]
      | p :: ps => (c :: p) :: ps

/-- Embeds the regex test `/^[a-zA-Z]{2,6}$/.test(tld)`. -/
def tldOk (tld : List Char) : Bool :=
  decide (2 ≤ tld.length) && decide (tld.length ≤ 6) && tld.all isAlphaChar

/-- Embeds the regex test `/^[a-zA-Z0-9.-]+$/.test(hostname)`. -/
def hostCharsOk (h : List Char) : Bool :=
  !h.isEmpty && h.all (fun c => isAlphaChar c || isDigitChar c || c == '.' || c == '-')

/-- Embeds `validate` from components/BookmarkForm.tsx, with the platform
URL parse modelled by `parseURL`. The checks run in source order: required
title, required URL, URL parse, scheme allow-list, hostname has a dot,
non-empty dot-separated labels, 2–6-letter top-level label, non-empty
second-to-last label, hostname character class. -/
def validate (title url : String) : Option String :=
  if jsTrim title = "" then some "Title is required."
  else if jsTrim url = "" then some "URL is required."
  else
    match parseURL (normaliseUrl url) with
    | none => some "Please enter a valid URL (e.g. https://example.com)."
    | some parsed =>
      if !(parsed.protocol == "http:".data || parsed.protocol == "https:".data) then
        some "URL must use http:// or https://."
      else if !(parsed.hostname.contains '.') then
        some "Please enter a real URL with a domain (e.g. https://example.com)."
      else
        let parts := splitOnDot parsed.hostname
        if parts.any (fun p => p.isEmpty) then
          some "Please enter a valid URL (e.g. https://example.com)."
        else if !(tldOk (parts.getLastD [])) then
          some "Please enter a valid URL (e.g. https://example.com)."
        else if parts.length < 2 || (parts.getD (parts.length - 2) []).isEmpty then
          some "Please enter a valid URL (e.g. https://example.com)."
        else if !(hostCharsOk parsed.hostname) then
          some "URL contains invalid characters."
        else none

/-- C6: with any title that is non-empty after trimming, the address
"hello" is rejected with the real-URL-with-a-domain message; "http://a.c"
parses to hostname "a.c" whose top-level label "c" has length 1, so it is
rejected; "example.com" is normalised to "https://example.com" and
accepted; and a title that is empty after trimming is rejected with
"Title is required." whatever the address. -/
theorem c6_validation_cases (title t2 url2 : String)
    (h : jsTrim title ≠ "") (h2 : jsTrim t2 = "") :
    validate title "hello" =
      some "Please enter a real URL with a domain (e.g. https://example.com)." ∧
    (parseURL (normaliseUrl "http://a.c") = some ⟨ "http:".data, "a.c".data⟩ ∧
      (splitOnDot "a.c".data).getLastD [] = ['c'] ∧
      ((splitOnDot "a.c".data).getLastD []).length = 1 ∧
      validate title "http://a.c" =
        some "Please enter a valid URL (e.g. https://example.com).") ∧
    (normaliseUrl "example.com" = "https://example.com" ∧
      validate title "example.com" = none) ∧
    validate t2 url2 = some "Title is required." := by
  refine ⟨?_, ⟨by decide, by decide, by decide, ?_⟩, ⟨by decide, ?_⟩, ?_⟩
  · unfold validate; rw [if_neg h]; decide
  · unfold validate; rw [if_neg h]; decide
  · unfold validate; rw [if_neg h]; decide
  · unfold validate; rw [if_pos h2]

/-- C6 instantiated at title "Docs", empty title " " and address "x". -/
theorem c6_validation_cases_witness :
    validate "Docs" "hello" =
      some "Please enter a real URL with a domain (e.g. https://example.com)." ∧
    (parseURL (normaliseUrl "http://a.c") = some ⟨ "http:".data, "a.c".data⟩ ∧
      (splitOnDot "a.c".data).getLastD [] = ['c'] ∧
      ((splitOnDot "a.c".data).getLastD []).length = 1 ∧
      validate "Docs" "http://a.c" =
        some "Please enter a valid URL (e.g. https://example.com).") ∧
    (normaliseUrl "example.com" = "https://example.com" ∧
      validate "Docs" "example.com" = none) ∧
    validate " " "x" = some "Title is required." :=
  c6_validation_cases "Docs" " " "x" (by decide) (by decide)

/-- C7 as stated is false: validating "ftp://example.com" (with a valid
title) yields the real-URL-with-a-domain message, not the scheme-rejection
message "URL must use http:// or https://.". -/
theorem c7_scheme_message_counterexample :
    validate "Docs" "ftp://example.com" =
      some "Please enter a real URL with a domain (e.g. https://example.com)." ∧
    validate "Docs" "ftp://example.com" ≠
      some "URL must use http:// or https://." := by
  constructor
  · decide
  · decide

/-- C7 amended: "ftp://example.com" is rejected by validation, but with the
real-URL-with-a-domain message rather than the scheme message, because
`normaliseUrl` prepends "https://" (the raw string does not start with
"http://" or "https://"), the result "https://ftp//example.com"-style parse
has scheme https and hostname "ftp", and that hostname contains no dot. -/
theorem c7_ftp_rejected_amended (title : String) (h : jsTrim title ≠ "") :
    normaliseUrl "ftp://example.com" = "https://ftp://example.com" ∧
    parseURL (normaliseUrl "ftp://example.com") =
      some ⟨ "https:".data, "ftp".data⟩ ∧
    validate title "ftp://example.com" =
      some "Please enter a real URL with a domain (e.g. https://example.com)." := by
  refine ⟨by decide, by decide, ?_⟩
  unfold validate; rw [if_neg h]; decide

/-- C7 amended, instantiated at title "Docs". -/
theorem c7_ftp_rejected_amended_witness :
    normaliseUrl "ftp://example.com" = "https://ftp://example.com" ∧
    parseURL (normaliseUrl "ftp://example.com") =
      some ⟨ "https:".data, "ftp".data⟩ ∧
    validate "Docs" "ftp://example.com" =
      some "Please enter a real URL with a domain (e.g. https://example.com)." :=
  c7_ftp_rejected_amended "Docs" (by decide)

/-- The observable outcome of one `handleSubmit` run in
components/BookmarkForm.tsx: the surfaced error, the two input fields, the
session view and the transient success flag. -/
structure SubmitOutcome where
  errorMsg : Option String
  titleField : String
  urlField : String
  view : List Bookmark
  success : Bool
deriving DecidableEq, Repr

/-- Embeds `handleSubmit` from components/BookmarkForm.tsx: validation
failure reports the message and stops; a missing user reports the signed-in
message; a Store insert error reports the Store's message and leaves fields
and view untouched; on success the returned row is handed to
`onBookmarkAdded` (the `applyInsert` callback), the fields are cleared and
the success flag set. -/
def handleSubmit (title url : String) (user : Option String)
    (storeInsert : Except String Bookmark) (view : List Bookmark) : SubmitOutcome :=
  match validate title url with
  | some msg => ⟨some msg, title, url, view, false⟩
  | none =>
    match user with
    | none => ⟨some "You must be logged in to add bookmarks.", title, url, view, false⟩
    | some _ =>
      match storeInsert with
      | .error m => ⟨some m, title, url, view, false⟩
      | .ok b => ⟨none, "", "", applyInsert b view, true⟩

/-- C8: when the Store's create request fails, `handleSubmit` surfaces the
Store's error message, keeps the submitted title and address in the input
fields, and leaves the session view untouched. -/
theorem c8_add_failure_no_mutation (title url uid m : String)
    (view : List Bookmark) (h : validate title url = none) :
    handleSubmit title url (some uid) (Except.error m) view =
      ⟨some m, title, url, view, false⟩ := by
  simp [handleSubmit, h]

/-- C8 instantiated: a failing insert of a valid submission leaves fields
and view as they were and surfaces the Store's message. -/
theorem c8_add_failure_no_mutation_witness :
    handleSubmit "Docs" "example.com" (some "user-1")
        (Except.error "row violates length constraint") [bmA] =
      ⟨some "row violates length constraint", "Docs", "example.com", [bmA], false⟩ :=
  c8_add_failure_no_mutation "Docs" "example.com" "user-1"
    "row violates length constraint" [bmA] (by decide)

end SmartBookmark
